import Mathlib

/-!
Shallow embedding of the `tjhop/ns1_exporter` repository (Go) for checking its
natural-language specification.  Pure data transformations are translated to
Lean functions; API calls are abstracted as explicitly passed provider results
(`Except Unit` for fallible calls, a `Bool` error flag where Go keeps going
after an error); the process-wide `ns1_api_failures` Prometheus counter is
modelled as a natural number of increments returned by each operation; Go maps
are modelled as association lists in iteration order, with overwriting insert.
-/

namespace NS1X

/-- Model of a compiled Go `*regexp.Regexp` together with its pattern string:
`pattern` stands for `re.String()` and `isMatch` for `re.MatchString`.  An
`Option Regex` models a possibly-nil `*regexp.Regexp`. -/
structure Regex where
  pattern : String
  isMatch : String → Bool

/-- The activation test the source applies to every regex filter:
`re != nil && re.String() != ""` (a nil or empty-pattern regex filters
nothing). -/
def regexActive : Option Regex → Bool
  | none => false
  | some r => r.pattern != ""

/-- Model of `re.MatchString(s)`, applied through the `Option`; only consulted when
`regexActive` holds. -/
def regexMatches (r : Option Regex) (s : String) : Bool :=
  match r with
  | none => false
  | some r => r.isMatch s

/-- Overwriting insert on an association list, modelling Go map assignment
`m[k] = v` (iteration order of a pre-existing key is kept, a new key is
appended). -/
def mapInsert {α : Type} (m : List (String × α)) (k : String) (v : α) :
    List (String × α) :=
  if m.any (fun p => p.1 == k) then
    m.map (fun p => if p.1 == k then (k, v) else p)
  else
    m ++ [(k, v)]

/-- The key set (in iteration order) of a modelled Go map. -/
def mapKeys {α : Type} (m : List (String × α)) : List String :=
  m.map (fun p => p.1)

/-- Go map lookup `m[k]` (as an `Option`). -/
def mapGet {α : Type} (m : List (String × α)) (k : String) : Option α :=
  (m.find? (fun p => p.1 == k)).map (fun p => p.2)

/-- Test for `err == nil` on a modelled fallible call. -/
def exceptOk {α : Type} : Except Unit α → Bool
  | .ok _ => true
  | .error _ => false

/-! ## pkg/ns1: internal data shapes (`api.go`) -/

/-- Shape of `model/dns.Zone` as consumed by the zone-listing call; only the `Zone`
name field is read by `RefreshZoneData` from the listing. -/
structure DnsZone where
  zone : String
deriving DecidableEq

/-- Shape of `model/dns.ZoneRecord` as returned inside a zone-detail response; the
fields `RefreshZoneData` reads. -/
structure DnsZoneRecord where
  domain : String
  shortAns : List String
  type : String
deriving DecidableEq

/-- The part of a `Zones.Get` response that `RefreshZoneData` reads:
`NetworkIDs` and `Records`. -/
structure DnsZoneDetail where
  networkIDs : List Int
  records : List DnsZoneRecord
deriving DecidableEq

/-- Internal `ns1.ZoneRecord` struct (trimmed view of a zone's record list
entry). -/
structure ZoneRecord where
  domain : String
  shortAns : List String
  type : String
deriving DecidableEq

/-- Internal `ns1.Zone` struct. -/
structure Zone where
  zone : String
  networkIDs : List Int
  records : List ZoneRecord
deriving DecidableEq

/-- One step of the `getRecords` traversal of `RefreshZoneData`: fetch the
zone's detail; on failure skip the zone (no counter increment), otherwise trim
each returned record and insert under the zone-name key. -/
def refreshZoneStep (zoneGet : String → Except Unit DnsZoneDetail)
    (m : List (String × Zone)) (z : DnsZone) : List (String × Zone) :=
  match zoneGet z.zone with
  | .error _ => m
  | .ok raw =>
    let recordData := raw.records.map (fun r => ZoneRecord.mk r.domain r.shortAns r.type)
    mapInsert m z.zone (Zone.mk z.zone raw.networkIDs recordData)

/-- Embedding of `ns1.RefreshZoneData` (`src/pkg/ns1/api.go`).  `zonesList` is the result
of the top-level `c.Zones.List()` call and `zoneGet` the per-zone
`c.Zones.Get(name, true)` call.  Returns the zone map together with the number
of `ns1_api_failures` counter increments performed by the call (only the
top-level listing failure increments it). -/
def RefreshZoneData (zonesList : Except Unit (List DnsZone))
    (zoneGet : String → Except Unit DnsZoneDetail) (getRecords : Bool)
    (zoneBlacklist zoneWhitelist : Option Regex) :
    List (String × Zone) × Nat :=
  match zonesList with
  | .error _ => ([], 1)
  | .ok zones0 =>
    let zones1 :=
      if regexActive zoneBlacklist then
        zones0.filter (fun z => !(regexMatches zoneBlacklist z.zone))
      else zones0
    let zones2 :=
      if regexActive zoneWhitelist then
        zones1.filter (fun z => regexMatches zoneWhitelist z.zone)
      else zones1
    let zMap :=
      if getRecords then
        zones2.foldl (refreshZoneStep zoneGet) []
      else
        zones2.foldl (fun m z => mapInsert m z.zone (Zone.mk "" [] [])) []
    (zMap, 0)

/-! ## pkg/exporter: QPS worker (`exporter.go`)

The QPS value type (`float32` in the source) is carried abstractly as a type
parameter `V`: the worker never computes with it, it only moves each call's
returned value into a cache entry. -/

/-- Internal `ns1.QPS` struct: one query-rate sample with optional
zone/record/type qualifiers (empty strings denote an account-level sample). -/
structure QPS (V : Type) where
  value : V
  zoneName : String
  recordName : String
  recordType : String
deriving DecidableEq

/-- One provider API call issued by a QPS refresh pass, recording which
endpoint was hit and with which qualifiers. -/
inductive QPSCall where
  | account : QPSCall
  | zone : String → QPSCall
  | record : String → String → String → QPSCall
deriving DecidableEq

/-- The `client.Stats` provider surface used by the exporter worker.  Each
call yields the returned raw value together with an `err != nil` flag (on
error Go still receives the zero value and keeps going). -/
structure StatsAPI (V : Type) where
  getQPS : V × Bool
  getZoneQPS : String → V × Bool
  getRecordQPS : String → String → String → V × Bool

/-- Result of one QPS refresh pass: the new cache, the list of provider calls
issued (in order), and the number of `ns1_api_failures` increments. -/
abbrev QPSPass (V : Type) : Type := List (QPS V) × List QPSCall × Nat

/-- Embedding of `exporter.Worker.RefreshQPSAccountData`: one account-level call; the cache
entry is appended with the call's returned value even when the call failed. -/
def RefreshQPSAccountData {V : Type} (stats : StatsAPI V) : QPSPass V :=
  ([QPS.mk stats.getQPS.1 "" "" ""], [QPSCall.account],
   if stats.getQPS.2 then 1 else 0)

/-- Embedding of `exporter.Worker.RefreshQPSZoneData`: one call per zone in the zone cache
(map iteration modelled by list order); a cache entry is appended for every
call, failed or not, and each failure increments the counter. -/
def RefreshQPSZoneData {V : Type} (zoneCache : List (String × Zone))
    (stats : StatsAPI V) : QPSPass V :=
  zoneCache.foldl
    (fun acc p =>
      (acc.1 ++ [QPS.mk (stats.getZoneQPS p.1).1 p.1 "" ""],
       acc.2.1 ++ [QPSCall.zone p.1],
       acc.2.2 + (if (stats.getZoneQPS p.1).2 then 1 else 0)))
    ([], [], 0)

/-- Embedding of `exporter.Worker.RefreshQPSRecordData`: one call per
(zone, record-domain, record-type) triple in the zone cache; a cache entry is
appended for every call, failed or not, and each failure increments the
counter. -/
def RefreshQPSRecordData {V : Type} (zoneCache : List (String × Zone))
    (stats : StatsAPI V) : QPSPass V :=
  zoneCache.foldl
    (fun acc p =>
      p.2.records.foldl
        (fun acc r =>
          (acc.1 ++ [QPS.mk (stats.getRecordQPS p.1 r.domain r.type).1 p.1 r.domain r.type],
           acc.2.1 ++ [QPSCall.record p.1 r.domain r.type],
           acc.2.2 + (if (stats.getRecordQPS p.1 r.domain r.type).2 then 1 else 0)))
        acc)
    ([], [], 0)

/-- Embedding of `exporter.Worker.RefreshQPSData`: dispatch to exactly one strategy —
record-level if `EnableRecordQPS`, else zone-level if `EnableZoneQPS`, else
account-level. -/
def RefreshQPSData {V : Type} (enableRecordQPS enableZoneQPS : Bool)
    (zoneCache : List (String × Zone)) (stats : StatsAPI V) : QPSPass V :=
  if enableRecordQPS then
    RefreshQPSRecordData zoneCache stats
  else if enableZoneQPS then
    RefreshQPSZoneData zoneCache stats
  else
    RefreshQPSAccountData stats

/-! ## pkg/servicediscovery: label encoding (`sd.go`) -/

/-- Label-name constants from `sd.go` (`promModel.MetaLabelPrefix` is
`"__meta_"`). -/
def ns1Label : String := "__meta_" ++ "ns1_"

def ns1RecordLabelAnswers : String := ns1Label ++ "record_answers"

def ns1RecordLabelDomain : String := ns1Label ++ "record_domain"

def ns1RecordLabelFilters : String := ns1Label ++ "record_filters"

def ns1RecordLabelID : String := ns1Label ++ "record_id"

def ns1RecordLabelLink : String := ns1Label ++ "record_link"

def ns1RecordLabelMeta : String := ns1Label ++ "record_meta"

def ns1RecordLabelOverrideAddressRecords : String :=
  ns1Label ++ "record_override_address_records_enabled"

def ns1RecordLabelOverrideTTL : String := ns1Label ++ "record_override_ttl_enabled"

def ns1RecordLabelRegions : String := ns1Label ++ "record_regions"

def ns1RecordLabelTTL : String := ns1Label ++ "record_ttl"

def ns1RecordLabelType : String := ns1Label ++ "record_type"

def ns1RecordLabelUseClientSubnet : String :=
  ns1Label ++ "record_use_client_subnet_enabled"

def ns1RecordLabelZone : String := ns1Label ++ "record_zone"

/-- Shape of the `data.Meta` property bag (dependency `ns1-go`, `rest/model/data`), with a
representative subset of its optional fields; a `none` field is an unset
(`nil`-interface) field. -/
structure Meta where
  up : Option Bool
  connections : Option Int
  requests : Option Int
  priority : Option Int
  weight : Option Int
  note : Option String
deriving DecidableEq

/-- The all-unset metadata value (`&data.Meta{}`). -/
def Meta.empty : Meta := Meta.mk none none none none none none

/-- Modelled from the `ns1-go` dependency's `(data.Meta).StringMap`, as pinned
by the repository's tests (`sd_test.go`): unset (zero/default) fields are
omitted, boolean fields are coerced to `1`/`0`, numeric fields render in
decimal, keys are the lowercase field names. -/
def Meta.stringMap (m : Meta) : List (String × String) :=
  (match m.up with
   | some b => [("up", if b then "1" else "0")]
   | none => []) ++
  (match m.connections with
   | some v => [("connections", toString v)]
   | none => []) ++
  (match m.requests with
   | some v => [("requests", toString v)]
   | none => []) ++
  (match m.priority with
   | some v => [("priority", toString v)]
   | none => []) ++
  (match m.weight with
   | some v => [("weight", toString v)]
   | none => []) ++
  (match m.note with
   | some v => [("note", v)]
   | none => [])

/-- Go map lookup with the string zero value, `metaMap[key]`. -/
def mapGetD (m : List (String × String)) (k : String) : String :=
  match mapGet m k with
  | some v => v
  | none => ""

/-- Byte-wise `a <= b` on character lists (Go compares strings byte-wise;
the keys involved are ASCII, where code-point order and byte order agree). -/
def charListLe : List Char → List Char → Bool
  | [], _ => true
  | _ :: _, [] => false
  | c :: cs, d :: ds =>
    if c.toNat < d.toNat then true
    else if d.toNat < c.toNat then false
    else charListLe cs ds

/-- Lexicographic `a <= b` on strings, the comparison `sort.Strings` sorts
by. -/
def strLe (a b : String) : Bool := charListLe a.toList b.toList

/-- Insert into an already ascending list, keeping it ascending. -/
def insertSorted (s : String) : List String → List String
  | [] => [s]
  | t :: ts => if strLe s t then s :: t :: ts else t :: insertSorted s ts

/-- Embedding of `sort.Strings`: ascending lexicographic insertion sort. -/
def sortStrings : List String → List String
  | [] => []
  | s :: ss => insertSorted s (sortStrings ss)

/-- Keys via `getMapKeys` followed by `sort.Strings` (ascending lexicographic sort). -/
def sortedMapKeys (m : List (String × String)) : List String :=
  sortStrings (mapKeys m)

/-- Embedding of `sd.metaAsPrometheusMetaLabel`: `meta[<inner><inner>]<outer>` for a nil or
empty metadata value, else `meta[<inner>` + `key=value<inner>` per field in
sorted key order + `]<outer>`. -/
def metaAsPrometheusMetaLabel (meta : Option Meta) (innerDelim outerDelim : String) :
    String :=
  match meta with
  | none => "meta[" ++ innerDelim ++ innerDelim ++ "]" ++ outerDelim
  | some m =>
    let metaMap := m.stringMap
    if metaMap.length == 0 then
      "meta[" ++ innerDelim ++ innerDelim ++ "]" ++ outerDelim
    else
      "meta[" ++ innerDelim ++
        String.join ((sortedMapKeys metaMap).map
          (fun key => key ++ "=" ++ mapGetD metaMap key ++ innerDelim)) ++
        "]" ++ outerDelim

/-- Embedding of `sd.answerRdataAsPrometheuaMetaLabel` (name as in the source). -/
def answerRdataAsPrometheuaMetaLabel (rdata : List String)
    (innerDelim outerDelim : String) : String :=
  if rdata.length == 0 then
    "rdata[" ++ innerDelim ++ innerDelim ++ "]" ++ outerDelim
  else
    "rdata[" ++ innerDelim ++
      String.join (rdata.map (fun data => data ++ innerDelim)) ++
      "]" ++ outerDelim

/-- Shape of `filter.Filter` (dependency): type name, disabled flag, and an
optional string-keyed config map (`none` models a nil map; values are carried
as their `%v` renderings). -/
structure RecFilter where
  type : String
  disabled : Bool
  config : Option (List (String × String))
deriving DecidableEq

/-- Embedding of `sd.recordFiltersAsPrometheusMetaLabel`: `,,` for an empty filter list,
else a leading `,` followed per filter by
`;type=<t>;disabled=<bool>;<config-block>` where the config block is
`config[||];,` for a nil/empty config and
`config[|<k>=<v>|...|];,` (keys sorted) otherwise. -/
def recordFiltersAsPrometheusMetaLabel (filters : List RecFilter) : String :=
  if filters.length == 0 then
    ",,"
  else
    "," ++ String.join (filters.map (fun f =>
      ";type=" ++ f.type ++ ";" ++
      "disabled=" ++ (if f.disabled then "true" else "false") ++ ";" ++
      (match f.config with
       | none => "config[||];,"
       | some cfg =>
         if cfg.length == 0 then
           "config[||];,"
         else
           "config[|" ++
             String.join ((sortStrings (mapKeys cfg)).map
               (fun key => key ++ "=" ++ mapGetD cfg key ++ "|")) ++
             "];,")))

/-- Shape of `dns.Answer` (dependency), the fields read by
`recordAsPrometheusTarget`. -/
structure Answer where
  id : String
  meta : Option Meta
  rdata : List String
  regionName : String
deriving DecidableEq

/-- Shape of `data.Region` (dependency): carries a (non-pointer) `Meta` value. -/
structure Region where
  meta : Meta
deriving DecidableEq

/-- Shape of `dns.Record` (dependency), the fields read by the SD worker.
`regions` is an optional map (`none` models a nil `data.Regions` map) and the
three override fields are nullable booleans (`none` = unset pointer). -/
structure DnsRecord where
  meta : Option Meta
  id : String
  zone : String
  domain : String
  type : String
  link : String
  ttl : Int
  answers : List Answer
  filters : List RecFilter
  regions : Option (List (String × Region))
  overrideAddressRecords : Option Bool
  overrideTTL : Option Bool
  useClientSubnet : Option Bool
deriving DecidableEq

/-- Embedding of `sd.HTTPSDTarget`: one synthesized target string and a label map (the
label set is modelled as an association list in the order the source builds
it, which is already ascending in the label names). -/
structure HTTPSDTarget where
  targets : List String
  labels : List (String × String)
deriving DecidableEq

/-- Rendering via `strconv.FormatBool` through a nullable boolean with `"false"` for an
unset pointer. -/
def formatBoolPtr : Option Bool → String
  | none => "false"
  | some b => if b then "true" else "false"

/-- Embedding of `sd.recordAsPrometheusTarget`.  Note on the `regions` label: the source
builds a per-region string into a local `regions` builder in the non-nil
branch but never assigns it to `recordRegionsMetaLabel`, so the emitted label
is `,,` for a nil region map and `""` otherwise; the built string is kept here
(unused) to mirror the source. -/
def recordAsPrometheusTarget (record : DnsRecord) : HTTPSDTarget :=
  let answers : String :=
    "," ++ String.join (record.answers.map (fun answer =>
      ";id=" ++ answer.id ++ ";" ++
      answerRdataAsPrometheuaMetaLabel answer.rdata "|" ";" ++
      metaAsPrometheusMetaLabel answer.meta "|" ";" ++
      "region_name=" ++ answer.regionName ++ ";" ++ ","))
  let recordRegionsMetaLabel : String :=
    match record.regions with
    | none => ",,"
    | some regs =>
      let regions : String :=
        "," ++ String.join (regs.map (fun p =>
          p.1 ++ "=" ++ metaAsPrometheusMetaLabel (some p.2.meta) ";" ","))
      let _ := regions
      ""
  let overrideAddr := formatBoolPtr record.overrideAddressRecords
  let overrideTTL := formatBoolPtr record.overrideTTL
  let useClientSubnet := formatBoolPtr record.useClientSubnet
  let labels : List (String × String) :=
    [(ns1RecordLabelAnswers, answers),
     (ns1RecordLabelDomain, record.domain),
     (ns1RecordLabelFilters, recordFiltersAsPrometheusMetaLabel record.filters),
     (ns1RecordLabelID, record.id),
     (ns1RecordLabelLink, record.link),
     (ns1RecordLabelMeta, "," ++ metaAsPrometheusMetaLabel record.meta ";" ","),
     (ns1RecordLabelOverrideAddressRecords, overrideAddr),
     (ns1RecordLabelOverrideTTL, overrideTTL),
     (ns1RecordLabelRegions, recordRegionsMetaLabel),
     (ns1RecordLabelTTL, toString record.ttl),
     (ns1RecordLabelType, record.type),
     (ns1RecordLabelUseClientSubnet, useClientSubnet),
     (ns1RecordLabelZone, record.zone)]
  HTTPSDTarget.mk [record.domain ++ "-" ++ record.type] labels

/-! ## pkg/servicediscovery: worker state and refresh (`sd.go`) -/

/-- Shape of `account.Activity` (dependency): only the `ResourceType` field is
read. -/
structure Activity where
  resourceType : String
deriving DecidableEq

/-- SD `Worker` state.  Go nil-slices are `none` (`recordCache`/`targetCache`
are only ever assigned nil or a freshly built non-empty slice);
`lastRefreshTimestamp` is an abstract instant. -/
structure SDWorker where
  zoneBlacklist : Option Regex
  zoneWhitelist : Option Regex
  recordTypeWhitelist : Option Regex
  zoneCache : List (String × Zone)
  recordCache : Option (List DnsRecord)
  targetCache : Option (List HTTPSDTarget)
  lastRefreshTimestamp : Nat
  pollCount : Nat

/-- Embedding of `sd.NewWorker`: caches start as Go zero values (nil). -/
def NewWorker (blacklist whitelist recordType : Option Regex) : SDWorker :=
  SDWorker.mk blacklist whitelist recordType [] none none 0 0

/-- The provider surface the SD worker pulls on during a refresh. -/
structure SDProviders where
  zonesList : Except Unit (List DnsZone)
  zoneGet : String → Except Unit DnsZoneDetail
  recordGet : String → String → String → Except Unit DnsRecord
  activityList : Except Unit (List Activity)

/-- Embedding of `sd.Worker.RefreshZoneData`: replaces the zone cache with the adapter's
result (`getRecords = true` unconditionally). -/
def SDWorker.RefreshZoneData (w : SDWorker) (p : SDProviders) : SDWorker × Nat :=
  let res := NS1X.RefreshZoneData p.zonesList p.zoneGet true w.zoneBlacklist w.zoneWhitelist
  ({ w with zoneCache := res.1 }, res.2)

/-- The record-type whitelist filter of `sd.Worker.RefreshRecordData` applied
to one cached zone's record list. -/
def filterZoneRecords (recordTypeWhitelist : Option Regex) (rs : List ZoneRecord) :
    List ZoneRecord :=
  rs.filter (fun r => regexMatches recordTypeWhitelist r.type)

/-- The conditional in-place record-type filter of `sd.Worker.RefreshRecordData`:
when a non-empty record-type whitelist is set, the filtered record list is
assigned back into the cached zone (`zData.Records = filteredRecords`, a
mutation through the cached pointer); otherwise the zone is untouched. -/
def zoneAfter (recordTypeWhitelist : Option Regex) (z : Zone) : Zone :=
  if regexActive recordTypeWhitelist then
    { z with records := filterZoneRecords recordTypeWhitelist z.records }
  else z

/-- Embedding of `sd.Worker.RefreshRecordData`: walks the zone cache; applies the
conditional whitelist mutation (`zoneAfter`) to each cached zone, then
fetches each remaining record's full body via `client.Records.Get(zData.Zone,
r.Domain, r.Type)`, skipping failures (each failure increments the counter).
The record cache is replaced by the accumulated slice (nil when nothing was
fetched). -/
def SDWorker.RefreshRecordData (w : SDWorker)
    (recordGet : String → String → String → Except Unit DnsRecord) :
    SDWorker × Nat :=
  let acc := w.zoneCache.foldl
    (fun (acc : List DnsRecord × List (String × Zone) × Nat) p =>
      let zData := zoneAfter w.recordTypeWhitelist p.2
      let fetched := zData.records.foldl
        (fun (a : List DnsRecord × Nat) r =>
          match recordGet zData.zone r.domain r.type with
          | .error _ => (a.1, a.2 + 1)
          | .ok record => (a.1 ++ [record], a.2))
        (acc.1, acc.2.2)
      (fetched.1, acc.2.1 ++ [(p.1, zData)], fetched.2))
    ([], [], 0)
  ({ w with
      recordCache := if acc.1.length == 0 then none else some acc.1,
      zoneCache := acc.2.1 },
   acc.2.2)

/-- Embedding of `sd.Worker.RefreshPrometheusTargetData`: maps every cached record to a
target and replaces the target cache (nil when there are no records). -/
def SDWorker.RefreshPrometheusTargetData (w : SDWorker) : SDWorker :=
  let data := (match w.recordCache with
    | none => []
    | some l => l).map recordAsPrometheusTarget
  { w with targetCache := if data.length == 0 then none else some data }

/-- Embedding of `sd.Worker.RefreshData`: zone data, then record data, then target data. -/
def SDWorker.RefreshData (w : SDWorker) (p : SDProviders) : SDWorker × Nat :=
  let r1 := w.RefreshZoneData p
  let r2 := r1.1.RefreshRecordData p.recordGet
  (r2.1.RefreshPrometheusTargetData, r1.2 + r2.2)

/-- The resource types whose activity can invalidate the record cache
(`sd.Worker.Refresh`'s switch cases). -/
def relevantResourceTypes : List String :=
  ["dns_zone", "record", "notify_list", "datasource", "datafeed", "job"]

/-- The `needsRefresh` decision of `sd.Worker.Refresh` once the activity list
has been polled: with no activity at all, refresh only at the 10-poll
ceiling; otherwise filter to the relevant resource types and skip exactly
when the filtered set is empty and the counter is below the ceiling. -/
def needsRefreshDecision (activity : List Activity) (pc : Nat) : Bool :=
  match activity.length with
  | 0 => if pc < 10 then false else true
  | _ + 1 =>
    let filteredActivity :=
      activity.filter (fun a => relevantResourceTypes.contains a.resourceType)
    if filteredActivity.length == 0 && pc < 10 then false else true

/-- Embedding of `sd.Worker.Refresh` (`src/pkg/servicediscovery/sd.go:285-331`): when the
record cache is nil skip the activity poll and refresh unconditionally;
otherwise list account activity (an error increments the counter and leaves
the listed activity empty), increment `pollCount`, and decide `needsRefresh`
from the activity filtered to the relevant resource types and the 10-poll
ceiling.  A refresh runs `RefreshData` and resets `pollCount` to 0;
`lastRefreshTimestamp` is set to the instant `ts` captured at the start in
every case. -/
def SDWorker.Refresh (w : SDWorker) (ts : Nat) (p : SDProviders) : SDWorker × Nat :=
  match w.recordCache with
  | none =>
    let r := w.RefreshData p
    ({ r.1 with pollCount := 0, lastRefreshTimestamp := ts }, r.2)
  | some _ =>
    let polled := match p.activityList with
      | .error _ => (([] : List Activity), 1)
      | .ok l => (l, 0)
    let activity := polled.1
    let pc := w.pollCount + 1
    let needsRefresh : Bool := needsRefreshDecision activity pc
    if needsRefresh then
      let r := SDWorker.RefreshData { w with pollCount := pc } p
      ({ r.1 with pollCount := 0, lastRefreshTimestamp := ts }, polled.2 + r.2)
    else
      ({ w with pollCount := pc, lastRefreshTimestamp := ts }, polled.2)

/-! ### JSON serving (`sd.Worker.ServeHTTP`)

`json.MarshalIndent(w.targetCache, "", "    ")` is modelled for the concrete
type `[]*HTTPSDTarget`: a nil slice marshals to `null`, an empty one to `[]`,
otherwise an indented array of objects with `targets` and `labels` keys, map
keys sorted.  Marshalling this shape cannot fail, so the 500 branch of
`ServeHTTP` is unreachable and the response is always status 200 with
content-type `application/json; charset=utf-8`. -/

/-- Model of `encoding/json` string escaping (Go escapes `"`, `\\`, control characters,
and HTML-escapes `<`, `>`, `&`). -/
def jsonEscapeChar (c : Char) : String :=
  if c = '"' then "\\\""
  else if c = '\\' then "\\\\"
  else if c = '\n' then "\\n"
  else if c = '\r' then "\\r"
  else if c = '\t' then "\\t"
  else if c = '<' then "\\u003c"
  else if c = '>' then "\\u003e"
  else if c = '&' then "\\u0026"
  else if c.toNat < 32 then
    let hexDigit (n : Nat) : String :=
      String.singleton (if n < 10 then Char.ofNat (48 + n) else Char.ofNat (87 + n))
    "\\u00" ++ hexDigit (c.toNat / 16) ++ hexDigit (c.toNat % 16)
  else String.singleton c

/-- A JSON string literal. -/
def jsonString (s : String) : String :=
  "\"" ++ String.join (s.toList.map jsonEscapeChar) ++ "\""

/-- Four spaces per indentation level (`MarshalIndent(v, "", "    ")`). -/
def jsonIndent (depth : Nat) : String := String.join (List.replicate depth "    ")

/-- An indented JSON array of string literals. -/
def jsonStringArray (depth : Nat) (xs : List String) : String :=
  match xs with
  | [] => "[]"
  | _ =>
    "[\n" ++
    String.intercalate ",\n" (xs.map (fun x => jsonIndent (depth + 1) ++ jsonString x)) ++
    "\n" ++ jsonIndent depth ++ "]"

/-- An indented JSON object from a string-keyed map (keys sorted, as
`encoding/json` marshals Go maps). -/
def jsonStringMap (depth : Nat) (m : List (String × String)) : String :=
  match m with
  | [] => "\x7b\x7d"
  | _ =>
    "\x7b\n" ++
    String.intercalate ",\n" ((sortStrings (mapKeys m)).map
      (fun k => jsonIndent (depth + 1) ++ jsonString k ++ ": " ++ jsonString (mapGetD m k))) ++
    "\n" ++ jsonIndent depth ++ "\x7d"

/-- One marshalled `HTTPSDTarget` object. -/
def jsonTarget (depth : Nat) (t : HTTPSDTarget) : String :=
  "\x7b\n" ++
  jsonIndent (depth + 1) ++ "\"targets\": " ++ jsonStringArray (depth + 1) t.targets ++ ",\n" ++
  jsonIndent (depth + 1) ++ "\"labels\": " ++ jsonStringMap (depth + 1) t.labels ++ "\n" ++
  jsonIndent depth ++ "\x7d"

/-- Model of `json.MarshalIndent` of the target cache slice: `null` for nil, `[]` for
empty, else the indented array. -/
def marshalTargetCache : Option (List HTTPSDTarget) → String
  | none => "null"
  | some [] => "[]"
  | some ts =>
    "[\n" ++
    String.intercalate ",\n" (ts.map (fun t => jsonIndent 1 ++ jsonTarget 1 t)) ++
    "\n]"

/-- The response `sd.Worker.ServeHTTP` writes: status code, `content-type`
header and body. -/
def SDWorker.ServeHTTP (w : SDWorker) : Nat × String × String :=
  (200, "application/json; charset=utf-8", marshalTargetCache w.targetCache)

/-- The zone value inserted for a successfully fetched zone during the
`getRecords` traversal (only consulted at zones where the detail call
succeeded). -/
def fetchedZone (zoneGet : String → Except Unit DnsZoneDetail) (z : DnsZone) : Zone :=
  match zoneGet z.zone with
  | .error _ => Zone.mk "" [] []
  | .ok raw =>
    Zone.mk z.zone raw.networkIDs
      (raw.records.map (fun r => ZoneRecord.mk r.domain r.shortAns r.type))

/-! ## Lemmas -/

theorem mapInsert_fresh {α : Type} (m : List (String × α)) (k : String) (v : α)
    (h : k ∉ mapKeys m) : mapInsert m k v = m ++ [(k, v)] := by
  unfold mapInsert
  rw [if_neg]
  intro hc
  rcases List.any_eq_true.mp hc with ⟨p, hp, hpk⟩
  exact h (by
    simp only [mapKeys, List.mem_map]
    exact ⟨p, hp, beq_iff_eq.mp hpk⟩)

theorem foldl_insert_zoneless (zs : List DnsZone) :
    ∀ (m : List (String × Zone)),
    (∀ z ∈ zs, z.zone ∉ mapKeys m) → (zs.map (fun z => z.zone)).Nodup →
    zs.foldl (fun m z => mapInsert m z.zone (Zone.mk "" [] [])) m
      = m ++ zs.map (fun z => (z.zone, Zone.mk "" [] [])) := by
  induction zs with
  | nil => intro m _ _; simp
  | cons z zs ih =>
    intro m hfresh hnd
    have hnd' : z.zone ∉ zs.map (fun z => z.zone) ∧ (zs.map (fun z => z.zone)).Nodup := by
      rw [List.map_cons] at hnd; exact List.nodup_cons.mp hnd
    simp only [List.foldl_cons]
    rw [mapInsert_fresh m z.zone _ (hfresh z (by simp))]
    rw [ih (m ++ [(z.zone, Zone.mk "" [] [])])
        (by
          intro z' hz'
          simp only [mapKeys, List.map_append, List.mem_append, List.map_cons,
            List.map_nil, List.mem_singleton]
          rintro (hmem | hEq)
          · exact hfresh z' (List.mem_cons_of_mem _ hz') (by simpa [mapKeys] using hmem)
          · exact hnd'.1 (by simpa [hEq] using List.mem_map_of_mem (fun z => z.zone) hz'))
        hnd'.2]
    simp

theorem foldl_refreshZoneStep (zoneGet : String → Except Unit DnsZoneDetail)
    (zs : List DnsZone) :
    ∀ (m : List (String × Zone)),
    (∀ z ∈ zs, z.zone ∉ mapKeys m) → (zs.map (fun z => z.zone)).Nodup →
    zs.foldl (refreshZoneStep zoneGet) m
      = m ++ (zs.filter (fun z => exceptOk (zoneGet z.zone))).map
          (fun z => (z.zone, fetchedZone zoneGet z)) := by
  induction zs with
  | nil => intro m _ _; simp
  | cons z zs ih =>
    intro m hfresh hnd
    have hnd' : z.zone ∉ zs.map (fun z => z.zone) ∧ (zs.map (fun z => z.zone)).Nodup := by
      rw [List.map_cons] at hnd; exact List.nodup_cons.mp hnd
    simp only [List.foldl_cons]
    rcases hg : zoneGet z.zone with e | raw
    · rw [show refreshZoneStep zoneGet m z = m by simp [refreshZoneStep, hg]]
      rw [ih m (fun z' hz' => hfresh z' (List.mem_cons_of_mem _ hz')) hnd'.2]
      have : (List.filter (fun z => exceptOk (zoneGet z.zone)) (z :: zs))
          = List.filter (fun z => exceptOk (zoneGet z.zone)) zs := by
        simp [List.filter_cons, hg, exceptOk]
      rw [this]
    · have hstep : refreshZoneStep zoneGet m z
          = m ++ [(z.zone, fetchedZone zoneGet z)] := by
        simp only [refreshZoneStep, hg]
        rw [mapInsert_fresh m z.zone _ (hfresh z (by simp))]
        simp [fetchedZone, hg]
      rw [hstep]
      rw [ih (m ++ [(z.zone, fetchedZone zoneGet z)])
          (by
            intro z' hz'
            simp only [mapKeys, List.map_append, List.mem_append, List.map_cons,
              List.map_nil, List.mem_singleton]
            rintro (hmem | hEq)
            · exact hfresh z' (List.mem_cons_of_mem _ hz') (by simpa [mapKeys] using hmem)
            · exact hnd'.1 (by simpa [hEq] using List.mem_map_of_mem (fun z => z.zone) hz'))
          hnd'.2]
      have : List.filter (fun z => exceptOk (zoneGet z.zone)) (z :: zs)
          = z :: List.filter (fun z => exceptOk (zoneGet z.zone)) zs := by
        simp [List.filter_cons, hg, exceptOk]
      rw [this]
      simp

theorem filter_if_active {α : Type} (b : Bool) (p : α → Bool) (l : List α) :
    (if b then l.filter p else l) = l.filter (fun a => !b || p a) := by
  cases b <;> simp

/-- The two regex filters of `RefreshZoneData` compose into a single
retention predicate: kept iff (no active blacklist or no blacklist match) and
(no active whitelist or a whitelist match). -/
theorem refreshZoneData_filters (zones0 : List DnsZone)
    (bl wl : Option Regex) :
    (if regexActive wl then
        (if regexActive bl then
            zones0.filter (fun z => !(regexMatches bl z.zone))
          else zones0).filter (fun z => regexMatches wl z.zone)
      else
        (if regexActive bl then
            zones0.filter (fun z => !(regexMatches bl z.zone))
          else zones0))
      = zones0.filter (fun z =>
          (!(regexActive bl) || !(regexMatches bl z.zone)) &&
          (!(regexActive wl) || regexMatches wl z.zone)) := by
  rw [filter_if_active (regexActive bl), filter_if_active (regexActive wl),
    List.filter_filter]
  congr 1
  funext z
  cases regexActive bl <;> cases regexActive wl <;>
    cases h : regexMatches bl z.zone <;> simp [h, Bool.and_comm]

/-- Full characterization of `RefreshZoneData` on a successful listing with
duplicate-free zone names: the combined blacklist/whitelist filter is applied
to the listing, then (`getRecords`) each zone whose detail call succeeds is
mapped to its trimmed value, or (not `getRecords`) every filtered zone is
mapped to the empty `Zone`; the failure counter is untouched. -/
theorem refreshZoneData_ok (zones0 : List DnsZone)
    (zoneGet : String → Except Unit DnsZoneDetail) (getRecords : Bool)
    (bl wl : Option Regex) (hnd : (zones0.map (fun z => z.zone)).Nodup) :
    RefreshZoneData (.ok zones0) zoneGet getRecords bl wl
      = ((if getRecords then
            (((zones0.filter (fun z =>
                (!(regexActive bl) || !(regexMatches bl z.zone)) &&
                (!(regexActive wl) || regexMatches wl z.zone))).filter
              (fun z => exceptOk (zoneGet z.zone))).map
              (fun z => (z.zone, fetchedZone zoneGet z)))
          else
            ((zones0.filter (fun z =>
                (!(regexActive bl) || !(regexMatches bl z.zone)) &&
                (!(regexActive wl) || regexMatches wl z.zone))).map
              (fun z => (z.zone, Zone.mk "" [] [])))), 0) := by
  have hkept :
      ((zones0.filter (fun z =>
        (!(regexActive bl) || !(regexMatches bl z.zone)) &&
        (!(regexActive wl) || regexMatches wl z.zone))).map (fun z => z.zone)).Nodup :=
    ((List.filter_sublist zones0).map (fun z => z.zone)).nodup hnd
  simp only [RefreshZoneData]
  rw [refreshZoneData_filters zones0 bl wl]
  cases getRecords with
  | false =>
    simp only [Bool.false_eq_true, if_false]
    rw [foldl_insert_zoneless _ [] (by simp [mapKeys]) hkept]
    simp
  | true =>
    simp only [if_true]
    rw [foldl_refreshZoneStep zoneGet _ [] (by simp [mapKeys]) hkept]
    simp

/-- C3 — **confirmed**.  On a successful zone listing (duplicate-free names,
all per-zone detail calls succeeding), the refreshed map's keys are exactly
the listed zones that survive the blacklist-then-whitelist filter: kept iff
(no active blacklist or no blacklist match) and (no active whitelist or a
whitelist match); a zone matching an active blacklist is never a key even if
it also matches the whitelist; with both regexes nil/empty-pattern, nothing
is filtered. -/
theorem c3_zone_filter_precedence (zones0 : List DnsZone)
    (zoneGet : String → Except Unit DnsZoneDetail) (getRecords : Bool)
    (bl wl : Option Regex) (hnd : (zones0.map (fun z => z.zone)).Nodup)
    (hok : ∀ s, exceptOk (zoneGet s) = true) :
    mapKeys (RefreshZoneData (.ok zones0) zoneGet getRecords bl wl).1
      = (zones0.filter (fun z =>
          (!(regexActive bl) || !(regexMatches bl z.zone)) &&
          (!(regexActive wl) || regexMatches wl z.zone))).map (fun z => z.zone) ∧
    (∀ z ∈ zones0, (regexActive bl && regexMatches bl z.zone) = true →
      z.zone ∉ mapKeys (RefreshZoneData (.ok zones0) zoneGet getRecords bl wl).1) ∧
    (regexActive bl = false → regexActive wl = false →
      mapKeys (RefreshZoneData (.ok zones0) zoneGet getRecords bl wl).1
        = zones0.map (fun z => z.zone)) := by
  have hfilter :
      zones0.filter (fun z => exceptOk (zoneGet z.zone)) = zones0 :=
    List.filter_eq_self.mpr (fun z _ => hok z.zone)
  have hmain :
      mapKeys (RefreshZoneData (.ok zones0) zoneGet getRecords bl wl).1
        = (zones0.filter (fun z =>
            (!(regexActive bl) || !(regexMatches bl z.zone)) &&
            (!(regexActive wl) || regexMatches wl z.zone))).map (fun z => z.zone) := by
    rw [refreshZoneData_ok zones0 zoneGet getRecords bl wl hnd]
    cases getRecords with
    | false => simp [mapKeys]
    | true =>
      simp only [if_true, mapKeys]
      rw [List.filter_comm, hfilter]
      simp
  refine ⟨hmain, ?_, ?_⟩
  · intro z hz hbl hmem
    rw [hmain] at hmem
    rcases List.mem_map.mp hmem with ⟨z', hz', hzz⟩
    have hz'0 := List.mem_filter.mp hz'
    have hzeq : z' = z := List.inj_on_of_nodup_map hnd hz'0.1 hz hzz
    subst hzeq
    have hpred := hz'0.2
    rcases (Bool.and_eq_true _ _).mp hbl with ⟨ha, hm⟩
    simp [ha, hm] at hpred
  · intro h1 h2
    rw [hmain, h1, h2]
    simp

/-- C4 — **confirmed**.  A failing top-level zone listing yields an empty map
and exactly one `ns1_api_failures` increment; on a successful listing
(duplicate-free names) the counter is never incremented — even when per-zone
detail calls fail — and the keys are exactly the filtered zones whose detail
call succeeded (failing zones are skipped, all others still processed). -/
theorem c4_zone_refresh_failures (zones0 : List DnsZone)
    (zoneGet : String → Except Unit DnsZoneDetail) (bl wl : Option Regex)
    (hnd : (zones0.map (fun z => z.zone)).Nodup) :
    RefreshZoneData (.error ()) zoneGet true bl wl = ([], 1) ∧
    (RefreshZoneData (.ok zones0) zoneGet true bl wl).2 = 0 ∧
    mapKeys (RefreshZoneData (.ok zones0) zoneGet true bl wl).1
      = (((zones0.filter (fun z =>
          (!(regexActive bl) || !(regexMatches bl z.zone)) &&
          (!(regexActive wl) || regexMatches wl z.zone))).filter
            (fun z => exceptOk (zoneGet z.zone))).map (fun z => z.zone)) := by
  refine ⟨rfl, ?_, ?_⟩
  · rw [refreshZoneData_ok zones0 zoneGet true bl wl hnd]
  · rw [refreshZoneData_ok zones0 zoneGet true bl wl hnd]
    simp [mapKeys]

/-- C7 — the claim that each inserted value "contains the zone's name" fails:
with `getRecords = false` the source inserts the zero-value `&Zone{}`, whose
zone-name field is the empty string (the repository's own test expects exactly
this). -/
theorem c7_counterexample :
    (mapGet (RefreshZoneData (.ok [DnsZone.mk "foo.bar"])
        (fun _ => .ok (DnsZoneDetail.mk [] [])) false none none).1 "foo.bar")
      = some (Zone.mk "" [] []) ∧
    (Zone.mk "" [] []).zone ≠ "foo.bar" := by
  constructor
  · rfl
  · decide

/-- C7 — **amended**: with `getRecords = false` and a successful listing
(duplicate-free names), the result maps every filtered zone name to the empty
`Zone` value (empty zone-name string, no records) — the zone names are
carried only by the map keys, whose set is exactly the filtered listing. -/
theorem c7_zoneless_map (zones0 : List DnsZone)
    (zoneGet : String → Except Unit DnsZoneDetail) (bl wl : Option Regex)
    (hnd : (zones0.map (fun z => z.zone)).Nodup) :
    (RefreshZoneData (.ok zones0) zoneGet false bl wl).1
      = (zones0.filter (fun z =>
          (!(regexActive bl) || !(regexMatches bl z.zone)) &&
          (!(regexActive wl) || regexMatches wl z.zone))).map
          (fun z => (z.zone, Zone.mk "" [] [])) ∧
    mapKeys (RefreshZoneData (.ok zones0) zoneGet false bl wl).1
      = (zones0.filter (fun z =>
          (!(regexActive bl) || !(regexMatches bl z.zone)) &&
          (!(regexActive wl) || regexMatches wl z.zone))).map (fun z => z.zone) := by
  constructor
  · rw [refreshZoneData_ok zones0 zoneGet false bl wl hnd]
    simp
  · rw [refreshZoneData_ok zones0 zoneGet false bl wl hnd]
    simp [mapKeys]

/-- Concrete zone listing used by witnesses (the repository's test zone
set). -/
def wZones : List DnsZone :=
  [DnsZone.mk "foo.bar", DnsZone.mk "keep.me", DnsZone.mk "drop.me"]

/-- A concrete non-empty blacklist matching exactly `drop.me` (standing for
the test's `drop.+`). -/
def wBlacklist : Option Regex := some (Regex.mk "drop.+" (fun s => s == "drop.me"))

/-- A per-zone detail call that always succeeds. -/
def wZoneGetOk : String → Except Unit DnsZoneDetail :=
  fun _ => .ok (DnsZoneDetail.mk [] [])

/-- A per-zone detail call that fails exactly on `keep.me`. -/
def wZoneGetFail : String → Except Unit DnsZoneDetail :=
  fun s => if s == "keep.me" then .error () else .ok (DnsZoneDetail.mk [] [])

theorem c3_witness :
    mapKeys (RefreshZoneData (.ok wZones) wZoneGetOk true wBlacklist none).1
      = ["foo.bar", "keep.me"] :=
  ((c3_zone_filter_precedence wZones wZoneGetOk true wBlacklist none (by decide)
      (fun _ => rfl)).1).trans (by decide)

theorem c4_witness :
    RefreshZoneData (.error ()) wZoneGetFail true none none = ([], 1) ∧
    (RefreshZoneData (.ok wZones) wZoneGetFail true none none).2 = 0 ∧
    mapKeys (RefreshZoneData (.ok wZones) wZoneGetFail true none none).1
      = ["foo.bar", "drop.me"] := by
  obtain ⟨h1, h2, h3⟩ := c4_zone_refresh_failures wZones wZoneGetFail none none (by decide)
  exact ⟨h1, h2, h3.trans (by decide)⟩

theorem c7_witness :
    (RefreshZoneData (.ok wZones) wZoneGetOk false none none).1
      = [("foo.bar", Zone.mk "" [] []), ("keep.me", Zone.mk "" [] []),
         ("drop.me", Zone.mk "" [] [])] :=
  ((c7_zoneless_map wZones wZoneGetOk none none (by decide)).1).trans (by decide)

/-! ### QPS refresh characterizations -/

theorem refreshQPSAccountData_eq {V : Type} (stats : StatsAPI V) :
    RefreshQPSAccountData stats
      = ([QPS.mk stats.getQPS.1 "" "" ""], [QPSCall.account],
         if stats.getQPS.2 then 1 else 0) := by
  rfl

theorem qpsZone_foldl {V : Type} (stats : StatsAPI V) (zc : List (String × Zone)) :
    ∀ (a : List (QPS V)) (b : List QPSCall) (c : Nat),
    zc.foldl
      (fun acc p =>
        (acc.1 ++ [QPS.mk (stats.getZoneQPS p.1).1 p.1 "" ""],
         acc.2.1 ++ [QPSCall.zone p.1],
         acc.2.2 + (if (stats.getZoneQPS p.1).2 then 1 else 0)))
      (a, b, c)
      = (a ++ zc.map (fun p => QPS.mk (stats.getZoneQPS p.1).1 p.1 "" ""),
         b ++ zc.map (fun p => QPSCall.zone p.1),
         c + (zc.filter (fun p => (stats.getZoneQPS p.1).2)).length) := by
  induction zc with
  | nil => intro a b c; simp
  | cons p ps ih =>
    intro a b c
    simp only [List.foldl_cons]
    rw [ih]
    rw [List.filter_cons]
    cases hp : (stats.getZoneQPS p.1).2 <;>
      simp [hp, Nat.add_assoc, Nat.add_comm 1]

theorem refreshQPSZoneData_eq {V : Type} (zc : List (String × Zone))
    (stats : StatsAPI V) :
    RefreshQPSZoneData zc stats
      = (zc.map (fun p => QPS.mk (stats.getZoneQPS p.1).1 p.1 "" ""),
         zc.map (fun p => QPSCall.zone p.1),
         (zc.filter (fun p => (stats.getZoneQPS p.1).2)).length) := by
  unfold RefreshQPSZoneData
  rw [qpsZone_foldl stats zc [] [] 0]
  simp

theorem qpsRecord_inner_foldl {V : Type} (stats : StatsAPI V) (zn : String)
    (rs : List ZoneRecord) :
    ∀ (a : List (QPS V)) (b : List QPSCall) (c : Nat),
    rs.foldl
      (fun acc r =>
        (acc.1 ++ [QPS.mk (stats.getRecordQPS zn r.domain r.type).1 zn r.domain r.type],
         acc.2.1 ++ [QPSCall.record zn r.domain r.type],
         acc.2.2 + (if (stats.getRecordQPS zn r.domain r.type).2 then 1 else 0)))
      (a, b, c)
      = (a ++ rs.map (fun r =>
            QPS.mk (stats.getRecordQPS zn r.domain r.type).1 zn r.domain r.type),
         b ++ rs.map (fun r => QPSCall.record zn r.domain r.type),
         c + (rs.filter (fun r => (stats.getRecordQPS zn r.domain r.type).2)).length) := by
  induction rs with
  | nil => intro a b c; simp
  | cons r rs ih =>
    intro a b c
    simp only [List.foldl_cons]
    rw [ih]
    rw [List.filter_cons]
    cases hr : (stats.getRecordQPS zn r.domain r.type).2 <;>
      simp [hr, Nat.add_assoc, Nat.add_comm 1]

theorem qpsRecord_foldl {V : Type} (stats : StatsAPI V) (zc : List (String × Zone)) :
    ∀ (a : List (QPS V)) (b : List QPSCall) (c : Nat),
    zc.foldl
      (fun acc p =>
        p.2.records.foldl
          (fun acc r =>
            (acc.1 ++ [QPS.mk (stats.getRecordQPS p.1 r.domain r.type).1 p.1 r.domain r.type],
             acc.2.1 ++ [QPSCall.record p.1 r.domain r.type],
             acc.2.2 + (if (stats.getRecordQPS p.1 r.domain r.type).2 then 1 else 0)))
          acc)
      (a, b, c)
      = (a ++ (zc.map (fun p => p.2.records.map (fun r =>
            QPS.mk (stats.getRecordQPS p.1 r.domain r.type).1 p.1 r.domain r.type))).flatten,
         b ++ (zc.map (fun p => p.2.records.map (fun r =>
            QPSCall.record p.1 r.domain r.type))).flatten,
         c + (zc.map (fun p => (p.2.records.filter (fun r =>
            (stats.getRecordQPS p.1 r.domain r.type).2)).length)).sum) := by
  induction zc with
  | nil => intro a b c; simp
  | cons p ps ih =>
    intro a b c
    simp only [List.foldl_cons]
    rw [qpsRecord_inner_foldl stats p.1 p.2.records a b c]
    rw [ih]
    simp [Nat.add_assoc]

theorem refreshQPSRecordData_eq {V : Type} (zc : List (String × Zone))
    (stats : StatsAPI V) :
    RefreshQPSRecordData zc stats
      = ((zc.map (fun p => p.2.records.map (fun r =>
            QPS.mk (stats.getRecordQPS p.1 r.domain r.type).1 p.1 r.domain r.type))).flatten,
         (zc.map (fun p => p.2.records.map (fun r =>
            QPSCall.record p.1 r.domain r.type))).flatten,
         (zc.map (fun p => (p.2.records.filter (fun r =>
            (stats.getRecordQPS p.1 r.domain r.type).2)).length)).sum) := by
  unfold RefreshQPSRecordData
  rw [qpsRecord_foldl stats zc [] [] 0]
  simp

/-- C2 — **confirmed**.  `RefreshQPSData` dispatches to exactly one strategy
by priority: with `EnableRecordQPS` it issues exactly one record-level call
and one cache sample per (zone, record-domain, record-type) triple in the
zone cache (all three qualifiers set from the triple); otherwise with
`EnableZoneQPS` one zone-level call and one sample per zone (`zoneName` set);
otherwise exactly one account-level call and one sample with all qualifiers
empty.  The call list of the taken branch contains no call shape of the other
strategies. -/
theorem c2_qps_dispatch_precedence {V : Type} (enableRecordQPS enableZoneQPS : Bool)
    (zc : List (String × Zone)) (stats : StatsAPI V) :
    RefreshQPSData enableRecordQPS enableZoneQPS zc stats
      = if enableRecordQPS then
          ((zc.map (fun p => p.2.records.map (fun r =>
              QPS.mk (stats.getRecordQPS p.1 r.domain r.type).1 p.1 r.domain r.type))).flatten,
           (zc.map (fun p => p.2.records.map (fun r =>
              QPSCall.record p.1 r.domain r.type))).flatten,
           (zc.map (fun p => (p.2.records.filter (fun r =>
              (stats.getRecordQPS p.1 r.domain r.type).2)).length)).sum)
        else if enableZoneQPS then
          (zc.map (fun p => QPS.mk (stats.getZoneQPS p.1).1 p.1 "" ""),
           zc.map (fun p => QPSCall.zone p.1),
           (zc.filter (fun p => (stats.getZoneQPS p.1).2)).length)
        else
          ([QPS.mk stats.getQPS.1 "" "" ""], [QPSCall.account],
           if stats.getQPS.2 then 1 else 0) := by
  cases enableRecordQPS <;> cases enableZoneQPS <;>
    simp [RefreshQPSData, refreshQPSRecordData_eq, refreshQPSZoneData_eq,
      refreshQPSAccountData_eq]

/-- C5 — **confirmed**.  For each QPS refresh level, every per-call provider
failure increments the API-failure counter without aborting the remaining
calls, and the cache entry for a failed call is still appended with the
call's returned value: at every level the final cache length equals the
number of calls attempted, the failure count equals the number of erroring
calls, and each entry holds the corresponding call's returned value. -/
theorem c5_qps_failed_calls_still_cached {V : Type} (zc : List (String × Zone))
    (stats : StatsAPI V) :
    (RefreshQPSAccountData stats).1.length = (RefreshQPSAccountData stats).2.1.length ∧
    RefreshQPSAccountData stats
      = ([QPS.mk stats.getQPS.1 "" "" ""], [QPSCall.account],
         if stats.getQPS.2 then 1 else 0) ∧
    (RefreshQPSZoneData zc stats).1.length = (RefreshQPSZoneData zc stats).2.1.length ∧
    RefreshQPSZoneData zc stats
      = (zc.map (fun p => QPS.mk (stats.getZoneQPS p.1).1 p.1 "" ""),
         zc.map (fun p => QPSCall.zone p.1),
         (zc.filter (fun p => (stats.getZoneQPS p.1).2)).length) ∧
    (RefreshQPSRecordData zc stats).1.length = (RefreshQPSRecordData zc stats).2.1.length ∧
    RefreshQPSRecordData zc stats
      = ((zc.map (fun p => p.2.records.map (fun r =>
            QPS.mk (stats.getRecordQPS p.1 r.domain r.type).1 p.1 r.domain r.type))).flatten,
         (zc.map (fun p => p.2.records.map (fun r =>
            QPSCall.record p.1 r.domain r.type))).flatten,
         (zc.map (fun p => (p.2.records.filter (fun r =>
            (stats.getRecordQPS p.1 r.domain r.type).2)).length)).sum) := by
  refine ⟨?_, refreshQPSAccountData_eq stats, ?_, refreshQPSZoneData_eq zc stats,
    ?_, refreshQPSRecordData_eq zc stats⟩
  · rw [refreshQPSAccountData_eq stats]
    rfl
  · rw [refreshQPSZoneData_eq zc stats]
    simp
  · rw [refreshQPSRecordData_eq zc stats]
    simp [Function.comp_def, List.length_map]

/-! ### Sortedness of the key sort -/

theorem charListLe_total : ∀ (l m : List Char),
    charListLe l m = true ∨ charListLe m l = true := by
  intro l
  induction l with
  | nil => intro m; left; rfl
  | cons c cs ih =>
    intro m
    cases m with
    | nil => right; rfl
    | cons d ds =>
      by_cases h1 : c.toNat < d.toNat
      · left; simp [charListLe, h1]
      · by_cases h2 : d.toNat < c.toNat
        · right; simp [charListLe, h2]
        · rcases ih ds with h | h
          · left; simp [charListLe, h1, h2, h]
          · right; simp [charListLe, h1, h2, h]

theorem strLe_total (a b : String) : strLe a b = true ∨ strLe b a = true :=
  charListLe_total a.toList b.toList

theorem insertSorted_headOpt (s : String) (l : List String) :
    (insertSorted s l).head? = some s ∨ (insertSorted s l).head? = l.head? := by
  cases l with
  | nil => left; rfl
  | cons t ts =>
    by_cases h : strLe s t
    · left; simp [insertSorted, h]
    · right; simp [insertSorted, h]

theorem chain'_insertSorted (s : String) (l : List String)
    (hl : l.Chain' (fun a b => strLe a b = true)) :
    (insertSorted s l).Chain' (fun a b => strLe a b = true) := by
  induction l with
  | nil => simp [insertSorted]
  | cons t ts ih =>
    rw [List.chain'_cons'] at hl
    by_cases h : strLe s t
    · have hins : insertSorted s (t :: ts) = s :: t :: ts := by
        simp [insertSorted, h]
      rw [hins, List.chain'_cons']
      refine ⟨?_, ?_⟩
      · intro y hy
        simp only [List.head?_cons, Option.mem_def, Option.some.injEq] at hy
        subst hy
        exact h
      · rw [List.chain'_cons']
        exact hl
    · have hins : insertSorted s (t :: ts) = t :: insertSorted s ts := by
        simp [insertSorted, h]
      rw [hins, List.chain'_cons']
      refine ⟨?_, ih hl.2⟩
      intro y hy
      rcases insertSorted_headOpt s ts with hh | hh
      · rw [hh] at hy
        simp only [Option.mem_def, Option.some.injEq] at hy
        subst hy
        rcases strLe_total s t with h' | h'
        · exact absurd h' h
        · exact h'
      · rw [hh] at hy
        exact hl.1 y hy

theorem chain'_sortStrings (l : List String) :
    (sortStrings l).Chain' (fun a b => strLe a b = true) := by
  induction l with
  | nil => simp [sortStrings]
  | cons s ss ih => exact chain'_insertSorted s (sortStrings ss) ih

/-- C6 — **confirmed**.  The meta-label encoding yields exactly
`meta[<inner><inner>]<outer>` for an absent metadata value or one with no
non-default fields, and otherwise the bracket form with one `key=value`
pair per non-default field followed by the inner delimiter, in ascending
(lexicographically sorted) key order; the spec's concrete cases hold:
`meta[||];`, `meta[;;],`, and weight=50/priority=1/up=true rendering as
`meta[|priority=1|up=1|weight=50|];` (boolean true rendered as `1`,
zero-valued/default fields omitted). -/
theorem c6_meta_label_encoding :
    (∀ innerDelim outerDelim : String,
      metaAsPrometheusMetaLabel none innerDelim outerDelim
        = "meta[" ++ innerDelim ++ innerDelim ++ "]" ++ outerDelim) ∧
    (∀ (m : Meta) (innerDelim outerDelim : String), m.stringMap = [] →
      metaAsPrometheusMetaLabel (some m) innerDelim outerDelim
        = "meta[" ++ innerDelim ++ innerDelim ++ "]" ++ outerDelim) ∧
    (∀ (m : Meta) (innerDelim outerDelim : String), m.stringMap ≠ [] →
      metaAsPrometheusMetaLabel (some m) innerDelim outerDelim
        = "meta[" ++ innerDelim ++
            String.join ((sortedMapKeys m.stringMap).map
              (fun key => key ++ "=" ++ mapGetD m.stringMap key ++ innerDelim)) ++
            "]" ++ outerDelim) ∧
    (∀ m : Meta,
      (sortedMapKeys m.stringMap).Chain' (fun a b => strLe a b = true)) ∧
    metaAsPrometheusMetaLabel none "|" ";" = "meta[||];" ∧
    metaAsPrometheusMetaLabel (some Meta.empty) ";" "," = "meta[;;]," ∧
    metaAsPrometheusMetaLabel
        (some (Meta.mk (some true) none none (some 1) (some 50) none)) "|" ";"
      = "meta[|priority=1|up=1|weight=50|];" := by
  refine ⟨fun i o => rfl, ?_, ?_, fun m => chain'_sortStrings (mapKeys m.stringMap),
    by decide, by decide, by decide⟩
  · intro m i o h
    simp [metaAsPrometheusMetaLabel, h]
  · intro m i o h
    have hlen : (m.stringMap.length == 0) = false := by
      rcases hm : m.stringMap with _ | ⟨p, ps⟩
      · exact absurd hm h
      · rfl
    simp [metaAsPrometheusMetaLabel, hlen]

theorem c6_witness :
    metaAsPrometheusMetaLabel (some Meta.empty) ";" "," = "meta[;;]," ∧
    metaAsPrometheusMetaLabel
        (some (Meta.mk (some true) none none (some 1) (some 50) none)) "|" ";"
      = "meta[|priority=1|up=1|weight=50|];" :=
  ⟨c6_meta_label_encoding.2.1 Meta.empty ";" "," (by decide),
   (c6_meta_label_encoding.2.2.1
      (Meta.mk (some true) none none (some 1) (some 50) none) "|" ";"
      (by decide)).trans (by decide)⟩

/-- C10 — **confirmed**.  The synthesized target's `regions` label is the
literal `,,` when the record's region map is nil and the empty string when it
is non-nil (even when non-empty): the per-region string the source builds in
the non-nil branch is never assigned to the emitted label, so the label is a
function of only the nil-ness of the region map. -/
theorem c10_regions_label (record : DnsRecord) :
    mapGet (recordAsPrometheusTarget record).labels ns1RecordLabelRegions
      = some (match record.regions with
              | none => ",,"
              | some _ => "") := by
  rcases record with ⟨meta, id, zone, domain, ty, link, ttl, answers, filters,
    regions, o1, o2, o3⟩
  cases regions <;> rfl

/-- C8 — the claim that every empty target-cache state serializes to `[]`
fails at the worker's initial state: the target cache starts as a nil slice,
and `json.MarshalIndent` of a nil slice produces the JSON literal `null`, not
`[]` (the repository's test only exercises a non-nil empty slice). -/
theorem c8_counterexample :
    (NewWorker none none none).ServeHTTP
      = (200, "application/json; charset=utf-8", "null") ∧
    ("null" : String) ≠ "[]" := by
  refine ⟨rfl, by decide⟩

/-- C8 — **amended**: serving with a *non-nil* empty target cache returns
status 200, content-type `application/json; charset=utf-8` and body exactly
`[]`; in the nil-cache states (the worker's initial state, and after a
refresh that produced zero targets) the body is the JSON literal `null`
instead. -/
theorem c8_empty_cache_serialization (w : SDWorker) :
    (w.targetCache = some [] →
      w.ServeHTTP = (200, "application/json; charset=utf-8", "[]")) ∧
    (w.targetCache = none →
      w.ServeHTTP = (200, "application/json; charset=utf-8", "null")) ∧
    (w.recordCache = none →
      w.RefreshPrometheusTargetData.targetCache = none) := by
  refine ⟨?_, ?_, ?_⟩
  · intro h
    simp [SDWorker.ServeHTTP, h, marshalTargetCache]
  · intro h
    simp [SDWorker.ServeHTTP, h, marshalTargetCache]
  · intro h
    simp [SDWorker.RefreshPrometheusTargetData, h]

theorem c8_witness :
    ({ NewWorker none none none with targetCache := some [] } : SDWorker).ServeHTTP
      = (200, "application/json; charset=utf-8", "[]") ∧
    (NewWorker none none none).ServeHTTP
      = (200, "application/json; charset=utf-8", "null") :=
  ⟨(c8_empty_cache_serialization
      { NewWorker none none none with targetCache := some [] }).1 rfl,
   (c8_empty_cache_serialization (NewWorker none none none)).2.1 rfl⟩

/-! ### Characterization of `RefreshRecordData` -/

theorem sdRecordInner_foldl
    (recordGet : String → String → String → Except Unit DnsRecord)
    (zname : String) (rs : List ZoneRecord) :
    ∀ (a : List DnsRecord) (c : Nat),
    rs.foldl
      (fun (a : List DnsRecord × Nat) r =>
        match recordGet zname r.domain r.type with
        | .error _ => (a.1, a.2 + 1)
        | .ok record => (a.1 ++ [record], a.2))
      (a, c)
      = (a ++ rs.filterMap (fun r => (recordGet zname r.domain r.type).toOption),
         c + (rs.filter
           (fun r => !(exceptOk (recordGet zname r.domain r.type)))).length) := by
  induction rs with
  | nil => intro a c; simp
  | cons r rs ih =>
    intro a c
    simp only [List.foldl_cons, List.filterMap_cons, List.filter_cons]
    cases hg : recordGet zname r.domain r.type with
    | error e =>
      rw [ih]
      simp [hg, exceptOk, Except.toOption, Nat.add_assoc, Nat.add_comm 1]
    | ok record =>
      rw [ih]
      simp [hg, exceptOk, Except.toOption]

theorem sdRecord_foldl (rt : Option Regex)
    (recordGet : String → String → String → Except Unit DnsRecord)
    (zc : List (String × Zone)) :
    ∀ (a : List DnsRecord) (zl : List (String × Zone)) (c : Nat),
    zc.foldl
      (fun (acc : List DnsRecord × List (String × Zone) × Nat) p =>
        let zData := zoneAfter rt p.2
        let fetched := zData.records.foldl
          (fun (a : List DnsRecord × Nat) r =>
            match recordGet zData.zone r.domain r.type with
            | .error _ => (a.1, a.2 + 1)
            | .ok record => (a.1 ++ [record], a.2))
          (acc.1, acc.2.2)
        (fetched.1, acc.2.1 ++ [(p.1, zData)], fetched.2))
      (a, zl, c)
      = (a ++ (zc.map (fun p => (zoneAfter rt p.2).records.filterMap
            (fun r => (recordGet (zoneAfter rt p.2).zone r.domain r.type).toOption))).flatten,
         zl ++ zc.map (fun p => (p.1, zoneAfter rt p.2)),
         c + (zc.map (fun p => ((zoneAfter rt p.2).records.filter
            (fun r => !(exceptOk
              (recordGet (zoneAfter rt p.2).zone r.domain r.type)))).length)).sum) := by
  induction zc with
  | nil => intro a zl c; simp
  | cons p ps ih =>
    intro a zl c
    simp only [List.foldl_cons]
    rw [sdRecordInner_foldl recordGet (zoneAfter rt p.2).zone (zoneAfter rt p.2).records a c]
    rw [ih]
    simp [Nat.add_assoc]

/-- Full characterization of `sd.Worker.RefreshRecordData`: the record cache
becomes the accumulated list of successfully fetched record bodies (nil when
empty), the zone cache becomes the per-zone `zoneAfter` image (the in-place
whitelist mutation), every other worker field is carried over unchanged, and
the failure counter is incremented once per failing per-record call. -/
theorem refreshRecordData_eq (w : SDWorker)
    (recordGet : String → String → String → Except Unit DnsRecord) :
    w.RefreshRecordData recordGet
      = ({ w with
            recordCache :=
              if ((w.zoneCache.map (fun p => (zoneAfter w.recordTypeWhitelist p.2).records.filterMap
                  (fun r => (recordGet (zoneAfter w.recordTypeWhitelist p.2).zone
                    r.domain r.type).toOption))).flatten).length == 0
              then none
              else some ((w.zoneCache.map (fun p => (zoneAfter w.recordTypeWhitelist p.2).records.filterMap
                  (fun r => (recordGet (zoneAfter w.recordTypeWhitelist p.2).zone
                    r.domain r.type).toOption))).flatten),
            zoneCache := w.zoneCache.map (fun p => (p.1, zoneAfter w.recordTypeWhitelist p.2)) },
         (w.zoneCache.map (fun p => ((zoneAfter w.recordTypeWhitelist p.2).records.filter
            (fun r => !(exceptOk (recordGet (zoneAfter w.recordTypeWhitelist p.2).zone
              r.domain r.type)))).length)).sum) := by
  unfold SDWorker.RefreshRecordData
  rw [sdRecord_foldl w.recordTypeWhitelist recordGet w.zoneCache [] [] 0]
  simp

/-- C9 — the claim that `RefreshRecordData` leaves the zone cache (including
each cached Zone's record list) untouched fails: with a non-empty record-type
whitelist, the filtered record list is assigned back into the cached zone,
mutating the cache contents in place. -/
theorem c9_counterexample :
    (SDWorker.RefreshRecordData
        { NewWorker none none
            (some (Regex.mk "SRV|AAAA" (fun t => t == "SRV" || t == "AAAA"))) with
          zoneCache := [("foo.bar", Zone.mk "foo.bar" []
            [ZoneRecord.mk "test.foo.bar" ["1.2.3.4"] "A",
             ZoneRecord.mk "test.foo.bar" ["dead::beef"] "AAAA"])] }
        (fun _ _ _ => .error ())).1.zoneCache
      ≠ [("foo.bar", Zone.mk "foo.bar" []
            [ZoneRecord.mk "test.foo.bar" ["1.2.3.4"] "A",
             ZoneRecord.mk "test.foo.bar" ["dead::beef"] "AAAA"])] := by
  decide

/-- C9 — **amended**: one call to `RefreshRecordData` replaces the record
cache by a single assignment of the freshly built list and leaves the regex
configuration, target cache, timestamp and poll counter unchanged; the zone
cache is unchanged when no non-empty record-type whitelist is set, but with
an active whitelist each cached Zone's record list is replaced in place by
its whitelist-filtered sublist. -/
theorem c9_record_refresh_frame (w : SDWorker)
    (recordGet : String → String → String → Except Unit DnsRecord) :
    (w.RefreshRecordData recordGet).1.zoneBlacklist = w.zoneBlacklist ∧
    (w.RefreshRecordData recordGet).1.zoneWhitelist = w.zoneWhitelist ∧
    (w.RefreshRecordData recordGet).1.recordTypeWhitelist = w.recordTypeWhitelist ∧
    (w.RefreshRecordData recordGet).1.targetCache = w.targetCache ∧
    (w.RefreshRecordData recordGet).1.lastRefreshTimestamp = w.lastRefreshTimestamp ∧
    (w.RefreshRecordData recordGet).1.pollCount = w.pollCount ∧
    (w.RefreshRecordData recordGet).1.recordCache
      = (if ((w.zoneCache.map (fun p => (zoneAfter w.recordTypeWhitelist p.2).records.filterMap
            (fun r => (recordGet (zoneAfter w.recordTypeWhitelist p.2).zone
              r.domain r.type).toOption))).flatten).length == 0
         then none
         else some ((w.zoneCache.map (fun p => (zoneAfter w.recordTypeWhitelist p.2).records.filterMap
            (fun r => (recordGet (zoneAfter w.recordTypeWhitelist p.2).zone
              r.domain r.type).toOption))).flatten)) ∧
    (w.RefreshRecordData recordGet).1.zoneCache
      = w.zoneCache.map (fun p => (p.1, zoneAfter w.recordTypeWhitelist p.2)) ∧
    (regexActive w.recordTypeWhitelist = false →
      (w.RefreshRecordData recordGet).1.zoneCache = w.zoneCache) := by
  rw [refreshRecordData_eq w recordGet]
  refine ⟨rfl, rfl, rfl, rfl, rfl, rfl, rfl, rfl, ?_⟩
  intro h
  simp [zoneAfter, h]

theorem c9_witness :
    (SDWorker.RefreshRecordData
        { NewWorker none none none with
          zoneCache := [("foo.bar", Zone.mk "foo.bar" []
            [ZoneRecord.mk "test.foo.bar" ["1.2.3.4"] "A"])] }
        (fun _ _ _ => .error ())).1.zoneCache
      = [("foo.bar", Zone.mk "foo.bar" []
          [ZoneRecord.mk "test.foo.bar" ["1.2.3.4"] "A"])] :=
  (c9_record_refresh_frame
      { NewWorker none none none with
        zoneCache := [("foo.bar", Zone.mk "foo.bar" []
          [ZoneRecord.mk "test.foo.bar" ["1.2.3.4"] "A"])] }
      (fun _ _ _ => .error ())).2.2.2.2.2.2.2.2 rfl

/-! ### The SD refresh decision (`sd.Worker.Refresh`) -/

/-- The operation `RefreshData` reads and writes only the regex configuration and the three
caches, so it commutes with overriding the poll counter. -/
theorem refreshData_pollCount (w : SDWorker) (p : SDProviders) (pc : Nat) :
    SDWorker.RefreshData { w with pollCount := pc } p
      = ({ (w.RefreshData p).1 with pollCount := pc }, (w.RefreshData p).2) := rfl

theorem needsRefreshDecision_eq_false (acts : List Activity) (pc : Nat) :
    needsRefreshDecision acts pc = false
      ↔ (acts.filter
          (fun (a : Activity) => relevantResourceTypes.contains a.resourceType) = [] ∧
         pc < 10) := by
  cases acts with
  | nil =>
    simp only [needsRefreshDecision, List.length_nil, List.filter_nil]
    by_cases hpc : pc < 10
    · simp [hpc]
    · simp [hpc]
  | cons a as =>
    by_cases hf : (a :: as).filter
        (fun (a : Activity) => relevantResourceTypes.contains a.resourceType) = []
    · by_cases hpc : pc < 10
      · have hd : needsRefreshDecision (a :: as) pc = false := by
          simp only [needsRefreshDecision, List.length_cons]
          rw [hf]
          simp [hpc]
        rw [hd]
        exact iff_of_true rfl ⟨hf, hpc⟩
      · have hd : needsRefreshDecision (a :: as) pc = true := by
          simp only [needsRefreshDecision, List.length_cons]
          rw [hf]
          simp [hpc]
        rw [hd]
        exact iff_of_false (by simp) (fun h => hpc h.2)
    · have hne : ¬ ((a :: as).filter
          (fun (a : Activity) => relevantResourceTypes.contains a.resourceType)).length = 0 :=
        fun h0 => hf (List.length_eq_zero.mp h0)
      have hlen : (((a :: as).filter
          (fun (a : Activity) => relevantResourceTypes.contains a.resourceType)).length == 0)
          = false := beq_eq_false_iff_ne.mpr hne
      have hd : needsRefreshDecision (a :: as) pc = true := by
        simp only [needsRefreshDecision, List.length_cons, hlen]
        rfl
      rw [hd]
      exact iff_of_false (by simp) (fun h => hf h.1)

theorem refresh_some_eq (bl wl rt : Option Regex) (zc : List (String × Zone))
    (l0 : List DnsRecord) (tc : Option (List HTTPSDTarget)) (lts pc ts : Nat)
    (p : SDProviders) :
    SDWorker.Refresh (SDWorker.mk bl wl rt zc (some l0) tc lts pc) ts p
      = (if ((match p.activityList with
              | .error _ => ([] : List Activity)
              | .ok a => a).filter
                (fun (a : Activity) => relevantResourceTypes.contains a.resourceType) = [] ∧
            pc + 1 < 10)
         then (SDWorker.mk bl wl rt zc (some l0) tc ts (pc + 1),
               match p.activityList with | .error _ => 1 | .ok _ => 0)
         else ({ (SDWorker.RefreshData
                    (SDWorker.mk bl wl rt zc (some l0) tc lts pc) p).1 with
                  pollCount := 0, lastRefreshTimestamp := ts },
               (match p.activityList with | .error _ => 1 | .ok _ => 0)
                 + (SDWorker.RefreshData
                      (SDWorker.mk bl wl rt zc (some l0) tc lts pc) p).2)) := by
  unfold SDWorker.Refresh
  rcases hact : p.activityList with e | acts
  · dsimp only
    by_cases hcond : (([] : List Activity).filter
        (fun (a : Activity) => relevantResourceTypes.contains a.resourceType) = [] ∧
        pc + 1 < 10)
    · rw [(needsRefreshDecision_eq_false [] (pc + 1)).mpr hcond]
      rw [if_neg (by simp), if_pos hcond]
    · rw [Bool.ne_false_iff.mp
        (fun h => hcond ((needsRefreshDecision_eq_false [] (pc + 1)).mp h))]
      rw [if_pos rfl, if_neg hcond]
      rw [refreshData_pollCount (SDWorker.mk bl wl rt zc (some l0) tc lts pc) p (pc + 1)]
  · dsimp only
    by_cases hcond : (acts.filter
        (fun (a : Activity) => relevantResourceTypes.contains a.resourceType) = [] ∧
        pc + 1 < 10)
    · rw [(needsRefreshDecision_eq_false acts (pc + 1)).mpr hcond]
      rw [if_neg (by simp), if_pos hcond]
    · rw [Bool.ne_false_iff.mp
        (fun h => hcond ((needsRefreshDecision_eq_false acts (pc + 1)).mp h))]
      rw [if_pos rfl, if_neg hcond]
      rw [refreshData_pollCount (SDWorker.mk bl wl rt zc (some l0) tc lts pc) p (pc + 1)]

/-- C1 — **confirmed**.  One call to `sd.Worker.Refresh`: with a nil record
cache (first run) it always performs the full data refresh and resets
`pollCount` to 0; otherwise it increments `pollCount`, filters the listed
activity (empty on a listing error) to the relevant resource types, skips the
full refresh exactly when the filtered set is empty and the incremented
`pollCount` is still below 10, and performs the full refresh (resetting
`pollCount` to 0) when the filtered set is non-empty or `pollCount` reached
10; in every case `lastRefreshTimestamp` becomes the instant captured at the
start of the call. -/
theorem c1_sd_refresh_decision (w : SDWorker) (ts : Nat) (p : SDProviders) :
    (w.Refresh ts p).1.lastRefreshTimestamp = ts ∧
    (w.recordCache = none →
      w.Refresh ts p
        = ({ (w.RefreshData p).1 with pollCount := 0, lastRefreshTimestamp := ts },
           (w.RefreshData p).2)) ∧
    (∀ l, w.recordCache = some l →
      (((match p.activityList with
          | .error _ => ([] : List Activity)
          | .ok a => a).filter
            (fun (a : Activity) => relevantResourceTypes.contains a.resourceType) = [] ∧
          w.pollCount + 1 < 10 →
        w.Refresh ts p
          = ({ w with pollCount := w.pollCount + 1, lastRefreshTimestamp := ts },
             match p.activityList with | .error _ => 1 | .ok _ => 0)) ∧
       (¬ ((match p.activityList with
            | .error _ => ([] : List Activity)
            | .ok a => a).filter
              (fun (a : Activity) => relevantResourceTypes.contains a.resourceType) = [] ∧
            w.pollCount + 1 < 10) →
        w.Refresh ts p
          = ({ (w.RefreshData p).1 with pollCount := 0, lastRefreshTimestamp := ts },
             (match p.activityList with | .error _ => 1 | .ok _ => 0)
               + (w.RefreshData p).2)))) := by
  obtain ⟨bl, wl, rt, zc, rc, tc, lts, pc⟩ := w
  cases rc with
  | none =>
    refine ⟨rfl, fun _ => rfl, fun l hl => absurd hl (by simp)⟩
  | some l0 =>
    refine ⟨?_, fun h => absurd h (by simp), fun l _ => ⟨?_, ?_⟩⟩
    · rw [refresh_some_eq bl wl rt zc l0 tc lts pc ts p]
      by_cases hcond : ((match p.activityList with
          | .error _ => ([] : List Activity)
          | .ok a => a).filter
            (fun (a : Activity) => relevantResourceTypes.contains a.resourceType) = [] ∧
          pc + 1 < 10)
      · rw [if_pos hcond]
      · rw [if_neg hcond]
    · intro hcond
      rw [refresh_some_eq bl wl rt zc l0 tc lts pc ts p, if_pos hcond]
    · intro hcond
      rw [refresh_some_eq bl wl rt zc l0 tc lts pc ts p, if_neg hcond]

/-- A minimal full record body, used to make a worker's record cache
non-nil. -/
def dummyRecord : DnsRecord :=
  DnsRecord.mk none "" "" "" "" "" 0 [] [] none none none none

/-- Concrete providers for the refresh-decision witnesses: empty zone
listing, failing record fetches, and one activity entry of an irrelevant
resource type. -/
def c1Providers : SDProviders :=
  SDProviders.mk (.ok []) (fun _ => .ok (DnsZoneDetail.mk [] []))
    (fun _ _ _ => .error ()) (.ok [Activity.mk "user"])

/-- A worker that already holds record data, on its first poll cycle. -/
def c1SkipWorker : SDWorker :=
  { NewWorker none none none with recordCache := some [dummyRecord] }

/-- A worker that already holds record data, at the 10-poll ceiling. -/
def c1CeilWorker : SDWorker :=
  { NewWorker none none none with recordCache := some [dummyRecord], pollCount := 9 }

theorem c1_witness :
    (SDWorker.Refresh c1SkipWorker 7 c1Providers).1.pollCount = 1 ∧
    (SDWorker.Refresh c1SkipWorker 7 c1Providers).1.lastRefreshTimestamp = 7 ∧
    (SDWorker.Refresh c1SkipWorker 7 c1Providers).1.recordCache
      = c1SkipWorker.recordCache ∧
    (SDWorker.Refresh (NewWorker none none none) 3 c1Providers).1.pollCount = 0 ∧
    (SDWorker.Refresh (NewWorker none none none) 3 c1Providers).1.lastRefreshTimestamp = 3 ∧
    (SDWorker.Refresh c1CeilWorker 5 c1Providers).1.pollCount = 0 ∧
    (SDWorker.Refresh c1CeilWorker 5 c1Providers).1.lastRefreshTimestamp = 5 := by
  have hskip := ((c1_sd_refresh_decision c1SkipWorker 7 c1Providers).2.2
    [dummyRecord] rfl).1 ⟨by decide, by decide⟩
  have hfirst := (c1_sd_refresh_decision (NewWorker none none none) 3 c1Providers).2.1 rfl
  have hceil := ((c1_sd_refresh_decision c1CeilWorker 5 c1Providers).2.2
    [dummyRecord] rfl).2 (by decide)
  refine ⟨?_, ?_, ?_, ?_, ?_, ?_, ?_⟩
  · rw [hskip]; rfl
  · rw [hskip]
  · rw [hskip]
  · rw [hfirst]
  · rw [hfirst]
  · rw [hceil]
  · rw [hceil]

end NS1X
